import Mathlib

/-!
Shallow embedding of the Record / RecordList cache and lazy-resolution engine of
`openerp_proxy/orm/record.py` (the odoo-rpc-client repository).

Conventions of the embedding:
* Python dictionaries become insertion-ordered association lists (`dSet`
  replaces in place, appends new keys), matching `dict.update` semantics.
* The per-type cache scope (`self._lcache`, class defined in `orm/cache.py`,
  which is not among the sources) is modelled from the spec, section 4.1;
  every such definition carries a doc comment starting `Modelled from the
  spec:`.
* The remote Object Service is an explicit collaborator value (`Service`);
  every remote invocation performed by an operation is recorded in a
  `List RCall` result component, so "performs no remote call" is `calls = []`.
* Python object identity is modelled by `Nat` tags: a `Cache` carries `tag`
  (which cache object a proxy dereferences) and every `Record` carries `itag`
  (instance identity); factory calls receive a `fresh : Nat` for new tags.
* Record ids are modelled as `Nat` (database ids are positive integers).
* Fallible paths (Python `KeyError` / failed `assert`) become `Option` /
  `Except` results.
-/

namespace Orm

/-- Raw field values as delivered by the Object Service: `None`, booleans,
integers, strings, the `[id, label]` pair of a many2one, or a list of ids. -/
inductive Value where
  | vnone
  | vbool (b : Bool)
  | vint (n : Int)
  | vstr (s : String)
  | vrel (rid : Nat) (label : String)
  | vids (ids : List Nat)
  deriving DecidableEq, Repr

/-- Python truthiness of a raw field value (`if rel_data:`). An `[id, label]`
pair is a non-empty list, hence always truthy. -/
def Value.truthy : Value → Bool
  | .vnone => false
  | .vbool b => b
  | .vint n => n != 0
  | .vstr s => s ≠ ""
  | .vrel _ _ => true
  | .vids ids => !ids.isEmpty

/-- Field-name-keyed dictionary (Python `dict` with string keys). -/
abbrev AList := List (String × Value)

/-- Lookup in an insertion-ordered dictionary modelled as an association
list. -/
def aFind {κ α : Type} [BEq κ] (d : List (κ × α)) (k : κ) : Option α :=
  (d.find? (fun p => p.1 == k)).map (·.2)

/-- Store `k ↦ v` in an insertion-ordered dictionary: replace the existing
entry in place, else append (Python `dict` assignment). -/
def aSet {κ α : Type} [BEq κ] : List (κ × α) → κ → α → List (κ × α)
  | [], k, v => [(k, v)]
  | (k1, v1) :: rest, k, v =>
      if k1 == k then (k, v) :: rest else (k1, v1) :: aSet rest k v

/-- Lookup in a string-keyed dictionary. -/
def dGet (d : AList) (k : String) : Option Value :=
  aFind d k

/-- Membership test (`k in d`). -/
def dHas (d : AList) (k : String) : Bool :=
  (dGet d k).isSome

/-- Store `k ↦ v` (Python insertion-ordered `dict` assignment). -/
def dSet (d : AList) (k : String) (v : Value) : AList :=
  aSet d k v

/-- Python `d.update(delta)`: entries of `delta` stored one by one. -/
def dUpdate (d : AList) (delta : AList) : AList :=
  delta.foldl (fun acc p => dSet acc p.1 p.2) d

/-- The per-type cache scope.  Modelled from the spec: the class behind
`cache[object.name]` lives in `orm/cache.py`, which is not among the sources;
section 3 of the spec gives its data: the registered `ids` set, the partial
per-id field `data`, and the shared `context` (absent until first update). -/
structure Scope where
  ids : List Nat
  data : List (Nat × AList)
  context : Option AList
  deriving DecidableEq, Repr

/-- Scope with nothing registered, no data and no context. -/
def Scope.empty : Scope := ⟨[], [], none⟩

/-- Data dictionary stored for one id (`lcache[id]`; a `defaultdict`, so a
missing id reads as an empty dict). -/
def Scope.getData (s : Scope) (rid : Nat) : AList :=
  (aFind s.data rid).getD []

/-- Replace the data dictionary of one id inside the scope. -/
def Scope.setData (s : Scope) (rid : Nat) (d : AList) : Scope :=
  { s with data := aSet s.data rid d }

/-- Modelled from the spec: `updateContext(delta)` of section 4.1 "merges
`delta` into the scope's context; does not replace it". -/
def Scope.update_context (s : Scope) (delta : AList) : Scope :=
  { s with context := some (dUpdate (s.context.getD []) delta) }

/-- Modelled from the spec: `registerIds(ids)` of section 4.1 "adds ids to the
scope's known set without fetching data" (`lcache.update_keys(ids)` in the
source); already-registered ids are not duplicated. -/
def Scope.update_keys (s : Scope) (ids : List Nat) : Scope :=
  ids.foldl (fun sc i => if i ∈ sc.ids then sc else { sc with ids := sc.ids ++ [i] }) s

/-- Modelled from the spec: `idsNeeding(field)` of section 4.1 "returns, from
the registered id set, those lacking `field` in their data"
(`lcache.get_ids_to_read(name)` in the source). -/
def Scope.get_ids_to_read (s : Scope) (name : String) : List Nat :=
  s.ids.filter (fun i => !(dHas (s.getData i) name))

/-- Modelled from the spec: `cacheField(id, fieldType, name, value)` of
section 4.1 "stores a raw value; field-type is passed through (not
interpreted here)" (`lcache.cache_field(...)` in the source). -/
def Scope.cache_field (s : Scope) (rid : Nat) (_ftype : String) (name : String) (v : Value) : Scope :=
  s.setData rid (dSet (s.getData rid) name v)

/-- The multi-level cache: per-type scopes plus an identity `tag` modelling
which Python cache object a proxy dereferences. -/
structure Cache where
  tag : Nat
  scopes : List (String × Scope)
  deriving DecidableEq, Repr

/-- Creates a fresh, independent cache (`empty_cache(proxy)` in the source);
`fresh` is the identity of the new Python object. -/
def empty_cache (fresh : Nat) : Cache := ⟨fresh, []⟩

/-- Scope for one object type; a missing type reads as the empty scope
(the cache is a `defaultdict`, creating scopes on first access). -/
def Cache.scope (c : Cache) (t : String) : Scope :=
  (aFind c.scopes t).getD Scope.empty

/-- Replace one object type's scope inside the cache. -/
def Cache.setScope (c : Cache) (t : String) (s : Scope) : Cache :=
  { c with scopes := aSet c.scopes t s }

/-- Column metadata of one field (`columns_info[name]`). -/
structure FieldInfo where
  ftype : String
  relation : String
  isFunction : Bool
  deriving DecidableEq, Repr

/-- The type descriptor + remote-call capability a Record holds
(`self._object`): its name and its column metadata. -/
structure ObjectS where
  name : String
  columns_info : List (String × FieldInfo)
  deriving DecidableEq, Repr

/-- Lookup of field metadata (`self._columns_info.get(name, None)`). -/
def cLookup (cols : List (String × FieldInfo)) (name : String) : Option FieldInfo :=
  aFind cols name

/-- Fields which could be fetched fast enough: all that are not binary and
not function fields (`ObjectRecords.simple_fields`). -/
def ObjectS.simple_fields (obj : ObjectS) : List String :=
  (obj.columns_info.filter (fun p => p.2.ftype ≠ "binary" && !p.2.isFunction)).map (·.1)

/-- One row of an Object Service `read` answer: the record id plus the field
data (the wire dict holds the id under key `id`; we keep it separate). -/
structure Row where
  rid : Nat
  fields : AList
  deriving DecidableEq, Repr

/-- The wire dict of a row, id key included, as consumed by `dict.update`. -/
def Row.asDict (row : Row) : AList :=
  ("id", Value.vint (Int.ofNat row.rid)) :: row.fields

/-- Remote invocations issued through the Object Service, recorded so that
frame properties ("no remote call") are statable. -/
inductive RCall where
  | read (ids : List Nat) (fields : Option (List String)) (ctx : Option AList)
  | checkExists (ids : List Nat) (ctx : Option AList)
  deriving DecidableEq, Repr

/-- The Object Service collaborator (spec section 6, out of scope of the core):
answers to `read` and `exists`, and the model registry `get_obj`. -/
structure Service where
  readResp : List Nat → Option (List String) → Option AList → List Row
  existsResp : List Nat → Option AList → List Nat
  getObj : String → ObjectS

/-- A Record proxy: its owning object descriptor, its id, the identity tag of
the cache it dereferences, its own instance identity tag, and the
instance-level `__dict__` holding memoized bound method accessors. -/
structure BoundMethod where
  methodName : String
  boundIds : List Nat
  btag : Nat
  deriving DecidableEq, Repr

/-- Memoized accessor lookup in the instance `__dict__`. -/
def mLookup (memo : List (String × BoundMethod)) (name : String) : Option BoundMethod :=
  aFind memo name

structure RecordS where
  obj : ObjectS
  rid : Nat
  cacheTag : Nat
  itag : Nat
  memo : List (String × BoundMethod)
  deriving DecidableEq, Repr

/-- Creates a new Record instance (`get_record(obj, rid, cache, context)`,
which delegates to `Record.__init__`): picks the given cache or a fresh empty
one, merges the given context into the type's scope, performs no remote call. -/
def get_record (obj : ObjectS) (rid : Nat) (cache : Option Cache)
    (context : Option AList) (fresh : Nat) : RecordS × Cache × List RCall :=
  let c0 := match cache with
    | some c => c
    | none => empty_cache fresh
  let c1 := match context with
    | some ctx => c0.setScope obj.name ((c0.scope obj.name).update_context ctx)
    | none => c0
  (⟨obj, rid, c1.tag, fresh, []⟩, c1, [])

/-- Python `hash((self._object.name, self._id))`: the hash key pair
(injective model of the derived hash). -/
def RecordS.hashKey (r : RecordS) : String × Nat :=
  (r.obj.name, r.rid)

/-- The other operand of `Record.__eq__`: a Record, a bare integer id, or
anything else. -/
inductive EqArg where
  | recd (r : RecordS)
  | intId (n : Int)
  | otherVal
  deriving DecidableEq, Repr

/-- Equality test of `Record.__eq__`: against a Record it compares the ids
only; against a bare int it compares this record's id; anything else is
unequal.  No cache and no service is consulted. -/
def RecordS.eq (self : RecordS) : EqArg → Bool
  | .recd other => other.rid == self.rid
  | .intId n => Int.ofNat self.rid == n
  | .otherVal => false

/-- Distribution loop of `Record._get_field`: `for data in read_data:
lcache.cache_field(data['id'], ftype, name, data[name])`.  A row lacking
`name` raises `KeyError` (flag `false`); rows already processed stay cached. -/
def cacheRowsAcc (s : Scope) (ftype name : String) : List Row → Scope × Bool
  | [] => (s, true)
  | row :: rest =>
      match dGet row.fields name with
      | some v => cacheRowsAcc (s.cache_field row.rid ftype name v) ftype name rest
      | none => (s, false)

/-- Last value a row list delivers for field `name` of id `i` (later rows win,
as in the distribution loop). -/
def rowsValue : List Row → Nat → String → Option Value
  | [], _, _ => none
  | row :: rest, i, name =>
      match rowsValue rest i name with
      | some v => some v
      | none => if row.rid == i then dGet row.fields name else none

/-- Result of one field fetch: the value (`none` models a `KeyError`), the
cache afterwards, and the remote calls issued. -/
structure FieldRes where
  val : Option Value
  cache : Cache
  calls : List RCall
  deriving DecidableEq, Repr

/-- Embeds `Record._get_field(ftype, name)`: on a cache miss it reads the
field for every registered id still lacking it, distributes the rows into
the scope, and returns this record's entry. -/
def RecordS.get_field (r : RecordS) (ftype name : String) (c : Cache)
    (srv : Service) : FieldRes :=
  let s := c.scope r.obj.name
  if dHas (s.getData r.rid) name then
    ⟨dGet (s.getData r.rid) name, c, []⟩
  else
    let toRead := s.get_ids_to_read name
    let rows := srv.readResp toRead (some [name]) s.context
    let step := cacheRowsAcc s ftype name rows
    let theCall := RCall.read toRead (some [name]) s.context
    if step.2 then
      ⟨dGet (step.1.getData r.rid) name, c.setScope r.obj.name step.1, [theCall]⟩
    else
      ⟨none, c.setScope r.obj.name step.1, [theCall]⟩

/-- Embeds `Record.refresh()`: clears this id's cached field data, re-seeds it
with the id entry, and returns `self`.  The instance `__dict__` (memoized
accessors) is left untouched, as in the source. -/
def RecordS.refresh (r : RecordS) (c : Cache) : RecordS × Cache :=
  let s := c.scope r.obj.name
  let s1 := s.setData r.rid [("id", Value.vint (Int.ofNat r.rid))]
  (r, c.setScope r.obj.name s1)

/-- Outcome of an attribute access: a data-field value or a bound
remote-method accessor. -/
inductive AttrOut where
  | value (v : Value)
  | bound (bm : BoundMethod)
  deriving DecidableEq, Repr

/-- Result of an attribute access: the outcome, the record afterwards (its
`__dict__` may have grown), the cache afterwards, and the remote calls. -/
structure AttrRes where
  res : AttrOut
  rec1 : RecordS
  cache : Cache
  calls : List RCall
  deriving DecidableEq, Repr

/-- Embeds attribute access on a Record: the memoized instance `__dict__` is
consulted first (normal Python lookup); `__getattr__` then tries
`self[name]` (`id` short-circuit, else metadata lookup and `_get_field`);
a `KeyError` resolves the name as a bound remote method, memoized via
`setattr`. -/
def RecordS.getattr (r : RecordS) (name : String) (c : Cache) (srv : Service)
    (fresh : Nat) : AttrRes :=
  match mLookup r.memo name with
  | some bm => ⟨.bound bm, r, c, []⟩
  | none =>
    if name = "id" then ⟨.value (Value.vint (Int.ofNat r.rid)), r, c, []⟩
    else
      match cLookup r.obj.columns_info name with
      | some info =>
          let out := r.get_field info.ftype name c srv
          match out.val with
          | some v => ⟨.value v, r, out.cache, out.calls⟩
          | none =>
              let bm : BoundMethod := ⟨name, [r.rid], fresh⟩
              ⟨.bound bm, { r with memo := r.memo ++ [(name, bm)] }, out.cache, out.calls⟩
      | none =>
          let bm : BoundMethod := ⟨name, [r.rid], fresh⟩
          ⟨.bound bm, { r with memo := r.memo ++ [(name, bm)] }, c, []⟩

/-- Result of `Record.read`: the row read for this id, the cache afterwards,
and the remote calls issued. -/
structure ReadRes where
  res : AList
  cache : Cache
  calls : List RCall
  deriving DecidableEq, Repr

/-- Embeds `Record.read(fields, context, multi)`.  Faithful to the source: the
`context` argument is accepted but never consulted (`ctx` is built from
`self.context` alone and the parameter is not merged in); only a non-empty
stored context is forwarded to the service. -/
def RecordS.read (r : RecordS) (fields : Option (List String))
    (context : Option AList) (multi : Bool) (c : Cache) (srv : Service) : ReadRes :=
  let s := c.scope r.obj.name
  let ctx : AList := s.context.getD []
  let ids := if multi then s.ids else [r.rid]
  let ctxArg : Option AList := if ctx.isEmpty then none else some ctx
  let rows := srv.readResp ids fields ctxArg
  let s1 := rows.foldl (fun sc row => sc.setData row.rid (dUpdate (sc.getData row.rid) row.asDict)) s
  let res := rows.foldl (fun acc row => if row.rid == r.rid then row.asDict else acc) ([] : AList)
  ⟨res, c.setScope r.obj.name s1, [RCall.read ids fields ctxArg]⟩

/-- A RecordList: its owning object descriptor, the ordered Record references,
and the identity tag of the cache it dereferences. -/
structure RecordListS where
  obj : ObjectS
  records : List RecordS
  cacheTag : Nat
  deriving DecidableEq, Repr

/-- IDs of records present in this RecordList (`self.ids`). -/
def RecordListS.ids (l : RecordListS) : List Nat :=
  l.records.map (·.rid)

/-- Modelled from the spec: `prefetchFields(fields)` of section 4.1 (the body
lives in `orm/cache.py`, not among the sources): "for each field ... compute
`idsNeeding(field)` and perform one batched remote read across the union,
distributing results"; nothing to fetch issues no call. -/
def Scope.prefetch_fields (s : Scope) (fields : List String) (srv : Service) :
    Scope × List RCall :=
  let toRead := s.ids.filter (fun i => fields.any (fun f => !(dHas (s.getData i) f)))
  if toRead.isEmpty then (s, [])
  else
    let rows := srv.readResp toRead (some fields) s.context
    let s1 := rows.foldl
      (fun sc row => fields.foldl
        (fun sc2 f => match dGet row.fields f with
          | some v => sc2.cache_field row.rid "" f v
          | none => sc2) sc) s
    (s1, [RCall.read toRead (some fields) s.context])

/-- Embeds `RecordList.prefetch(*fields)`: an empty field tuple falls back to
the object's simple fields, then the scope's prefetch runs. -/
def RecordListS.prefetch (l : RecordListS) (fields : List String) (c : Cache)
    (srv : Service) : RecordListS × Cache × List RCall :=
  let fs := if fields.isEmpty then l.obj.simple_fields else fields
  let step := (c.scope l.obj.name).prefetch_fields fs srv
  (l, c.setScope l.obj.name step.1, step.2)

/-- Returns a new instance of RecordList (`get_record_list`, which delegates
to `RecordList.__init__`): picks the given cache or a fresh empty one, merges
the given context into the type's scope, registers the ids, builds one Record
per id over the shared cache, and, when a `fields` argument was given,
prefetches those fields (which may issue a remote read). -/
def get_record_list (obj : ObjectS) (ids : Option (List Nat))
    (fields : Option (List String)) (cache : Option Cache)
    (context : Option AList) (srv : Service) (fresh : Nat) :
    RecordListS × Cache × List RCall :=
  let c0 := match cache with
    | some c => c
    | none => empty_cache fresh
  let c1 := match context with
    | some ctx => c0.setScope obj.name ((c0.scope obj.name).update_context ctx)
    | none => c0
  let ids1 := ids.getD []
  let c2 := c1.setScope obj.name ((c1.scope obj.name).update_keys ids1)
  let recs := ids1.map (fun i => (get_record obj i (some c2) none fresh).1)
  let l : RecordListS := ⟨obj, recs, c2.tag⟩
  match fields with
  | none => (l, c2, [])
  | some fs =>
      let step := l.prefetch fs c2 srv
      (step.1, step.2.1, step.2.2)

/-- Python `list.insert` index handling: negative indices count from the end,
out-of-range indices clamp. -/
def pyInsertAt (l : List RecordS) (index : Int) (x : RecordS) : List RecordS :=
  let n : Int := Int.ofNat l.length
  let i : Nat := (if index < 0 then max (n + index) 0 else min index n).toNat
  l.take i ++ x :: l.drop i

/-- Argument of `RecordList.insert`: a Record, a bare integer id, or anything
else (which fails the `assert`). -/
inductive InsertArg where
  | recd (r : RecordS)
  | intId (n : Nat)
  | otherVal (descr : String)
  deriving DecidableEq, Repr

/-- Outcome of `ObjectRecords.read_records`: a single Record or a RecordList,
each with the cache it was built over and the remote calls issued. -/
inductive ReadRecordsRes where
  | one (r : RecordS) (c : Cache) (calls : List RCall)
  | many (l : RecordListS) (c : Cache) (calls : List RCall)
  deriving DecidableEq, Repr

/-- Argument of `ObjectRecords.read_records`: an id, a list of ids, or
anything else (which fails the `assert`). -/
inductive IdsArg where
  | one (n : Nat)
  | many (ids : List Nat)
  | otherVal (descr : String)
  deriving DecidableEq, Repr

/-- Embeds `ObjectRecords.read_records(ids, fields, context, cache)`.
Faithful to the source: the `cache` parameter is accepted but never forwarded
to `get_record` / `get_record_list`, so the produced proxies are always built
over a fresh empty cache. -/
def read_records (obj : ObjectS) (ids : IdsArg) (fields : Option (List String))
    (context : Option AList) (cache : Option Cache) (srv : Service)
    (fresh : Nat) : Except String ReadRecordsRes :=
  match ids with
  | .one n =>
      let step := get_record obj n none context fresh
      match fields with
      | none => .ok (.one step.1 step.2.1 step.2.2)
      | some fs =>
          let rd := step.1.read (some fs) none false step.2.1 srv
          .ok (.one step.1 rd.cache (step.2.2 ++ rd.calls))
  | .many ids1 =>
      let step := get_record_list obj (some ids1) fields none context srv fresh
      .ok (.many step.1 step.2.1 step.2.2)
  | .otherVal _ => .error "ids must be instance of (int, long, list, tuple)"

/-- Embeds `RecordList.insert(index, item)`: a Record is inserted as given; a
bare id is resolved through `self._object.read_records(item)` (which builds
the Record over a fresh cache, since `read_records` forwards no cache); any
other item fails the `assert`. -/
def RecordListS.insert (l : RecordListS) (index : Int) (item : InsertArg)
    (srv : Service) (fresh : Nat) : Except String (RecordListS × List RCall) :=
  match item with
  | .recd r => .ok ({ l with records := pyInsertAt l.records index r }, [])
  | .intId n =>
      match read_records l.obj (.one n) none none none srv fresh with
      | .ok (.one r _ calls) =>
          .ok ({ l with records := pyInsertAt l.records index r }, calls)
      | .ok (.many _ _ calls) => .ok (l, calls)
      | .error e => .error e
  | .otherVal _ => .error "Only Record or int or long instances could be added to list"

/-- Loop body of `RecordList.existing`: keep ids reported as existing, and
under `uniqify` drop ids already kept. -/
def pyFilterUniq (uniqify : Bool) (exist : List Nat) : List Nat → List Nat → List Nat
  | acc, [] => acc
  | acc, x :: xs =>
      if x ∉ exist then pyFilterUniq uniqify exist acc xs
      else if uniqify = true ∧ x ∈ acc then pyFilterUniq uniqify exist acc xs
      else pyFilterUniq uniqify exist (acc ++ [x]) xs

/-- Embeds `RecordList.existing(uniqify)`: asks the Object Service which of
this list's ids still exist (`self.exists()`, forwarded with this list's
context), filters the id sequence, and builds a new RecordList over the same
cache. -/
def RecordListS.existing (l : RecordListS) (uniqify : Bool) (c : Cache)
    (srv : Service) (fresh : Nat) : RecordListS × Cache × List RCall :=
  let s := c.scope l.obj.name
  let existing_ids := srv.existsResp l.ids s.context
  let new_ids := pyFilterUniq uniqify existing_ids [] l.ids
  let step := get_record_list l.obj (some new_ids) none (some c) none srv fresh
  (step.1, step.2.1, RCall.checkExists l.ids s.context :: step.2.2)

/-- Embeds `RecordList.copy(context, new_cache)`.  Returns the new list, the
state of the cache the *source* list dereferences, the state of the cache the
*new* list dereferences, and the remote calls.  With `new_cache = false` both
are the same mutated shared cache; with `new_cache = true` the source cache is
untouched and the new list lives on a fresh one. -/
def RecordListS.copy (l : RecordListS) (context : Option AList)
    (new_cache : Bool) (c : Cache) (srv : Service) (fresh : Nat) :
    RecordListS × Cache × Cache × List RCall :=
  let cache0 := if new_cache then empty_cache fresh else c
  let step := get_record_list l.obj (some l.ids) none (some cache0) context srv fresh
  if new_cache then (step.1, c, step.2.1, step.2.2)
  else (step.1, step.2.1, step.2.1, step.2.2)

/-- Embeds `RecordList.read(fields, context)`.  Faithful to the source: the
method rebuilds its `kwargs` from scratch, so the `context` argument is
dropped and only the stored context is forwarded; the cache is not updated. -/
def RecordListS.read (l : RecordListS) (fields : Option (List String))
    (context : Option AList) (c : Cache) (srv : Service) :
    List Row × List RCall :=
  let ctx := (c.scope l.obj.name).context
  (srv.readResp l.ids fields ctx, [RCall.read l.ids fields ctx])

/-- A resolved relation value stored in `_related_objects`: the `False`
sentinel for "no relation", a Record, or a RecordList. -/
inductive RelVal where
  | noRel
  | one (r : RecordS)
  | many (l : RecordListS)
  deriving DecidableEq, Repr

/-- Lookup in the record-local relation map. -/
def rLookup (rel : List (String × RelVal)) (name : String) : Option RelVal :=
  aFind rel name

/-- Store into the record-local relation map. -/
def rSet (rel : List (String × RelVal)) (name : String) (v : RelVal) :
    List (String × RelVal) :=
  aSet rel name v

/-- A relation-aware Record (`RecordRelations`): the base Record plus the
record-local `_related_objects` map. -/
structure RecordRel where
  base : RecordS
  related : List (String × RelVal)
  deriving DecidableEq, Repr

/-- Extraction of the related id from a raw many2one value:
`rel_data[0] if isinstance(rel_data, (list, tuple)) else rel_data`; a value
that is not an id at all fails the Record constructor's `assert`. -/
def extractRelId : Value → Option Nat
  | .vrel rid _ => some rid
  | .vids ids => ids.head?
  | .vint n => if n < 0 then none else some n.toNat
  | _ => none

/-- Embeds `RecordRelations._get_many2one_rel_obj(name, rel_data, cached)`:
a missing or `cached=False` entry is (re)resolved — a truthy raw value yields
a fresh Record over the related model sharing this record's cache and
context, a falsy one stores the `False` sentinel; otherwise the memoized
entry is returned unchanged. -/
def RecordRel.get_many2one_rel_obj (r : RecordRel) (name : String)
    (rel_data : Value) (cached : Bool) (c : Cache) (srv : Service)
    (fresh : Nat) : Option (RelVal × RecordRel × Cache) :=
  if (rLookup r.related name).isNone || !cached then
    if rel_data.truthy then
      match extractRelId rel_data, (cLookup r.base.obj.columns_info name).map (·.relation) with
      | some rel_id, some relName =>
          let rel_obj := srv.getObj relName
          let step := get_record rel_obj rel_id (some c)
            ((c.scope r.base.obj.name).context) fresh
          some (RelVal.one step.1, { r with related := rSet r.related name (RelVal.one step.1) }, step.2.1)
      | _, _ => none
    else
      some (RelVal.noRel, { r with related := rSet r.related name RelVal.noRel }, c)
  else
    (rLookup r.related name).map (fun v => (v, r, c))

/-- Result of accessing one field on a whole collection of Records: the value
each access returned, the final cache, and every remote call issued. -/
structure MultiRes where
  vals : List (Option Value)
  cache : Cache
  calls : List RCall
  deriving DecidableEq, Repr

/-- Sequentially accesses field `name` on every Record of the collection,
threading the shared cache (the batching scenario of the spec, section 8). -/
def accessAll (ftype name : String) (rs : List RecordS) (c : Cache)
    (srv : Service) : MultiRes :=
  match rs with
  | [] => ⟨[], c, []⟩
  | r :: rest =>
      let e := r.get_field ftype name c srv
      let m := accessAll ftype name rest e.cache srv
      ⟨e.val :: m.vals, m.cache, e.calls ++ m.calls⟩

/-- Keeps the first occurrence of each id not yet in `seen`, preserving
first-seen order (the specification-side description of de-duplication). -/
def dedupFirstFrom (seen : List Nat) : List Nat → List Nat
  | [] => []
  | x :: xs =>
      if x ∈ seen then dedupFirstFrom seen xs
      else x :: dedupFirstFrom (x :: seen) xs

/-- States that every id registered in the scope of type `t` already has field
`name` cached (the post-state of a successful batched fetch). -/
def allCached (c : Cache) (t name : String) : Prop :=
  ∀ i ∈ (c.scope t).ids, dHas ((c.scope t).getData i) name = true

/-- Sample object type used by concrete witnesses: a partner with one simple
char field and one many2one field. -/
def objPartner : ObjectS :=
  ⟨"res.partner", [("name", ⟨"char", "", false⟩),
                   ("parent_id", ⟨"many2one", "res.partner", false⟩)]⟩

/-- Sample Object Service used by concrete witnesses: `read` answers one row
per requested id carrying a `name` value, `exists` confirms every id, and
`get_obj` returns a bare descriptor. -/
def srvNames : Service :=
  ⟨fun ids _ _ => ids.map (fun i => ⟨i, [("name", Value.vstr "x")]⟩),
   fun ids _ => ids,
   fun t => ⟨t, []⟩⟩

/-! Helper lemmas about the dictionary model and the scope/cache stores. -/

theorem aFind_cons {κ α : Type} [BEq κ] (k1 : κ) (v1 : α) (rest : List (κ × α))
    (k : κ) : aFind ((k1, v1) :: rest) k = if k1 == k then some v1 else aFind rest k := by
  by_cases h : (k1 == k) = true <;> simp [aFind, List.find?, h]

theorem aFind_aSet_self {κ α : Type} [BEq κ] [LawfulBEq κ] (d : List (κ × α))
    (k : κ) (v : α) : aFind (aSet d k v) k = some v := by
  induction d with
  | nil => simp [aSet, aFind, List.find?]
  | cons p rest ih =>
      obtain ⟨k1, v1⟩ := p
      by_cases h : k1 = k
      · subst h; simp [aSet, aFind, List.find?]
      · simp [aSet, h, aFind_cons, ih]

theorem aFind_aSet_ne {κ α : Type} [BEq κ] [LawfulBEq κ] (d : List (κ × α))
    (k k' : κ) (v : α) (h : k' ≠ k) : aFind (aSet d k v) k' = aFind d k' := by
  have h1 : ¬ k = k' := fun e => h e.symm
  induction d with
  | nil => simp [aSet, aFind_cons, h1, aFind]
  | cons p rest ih =>
      obtain ⟨k1, v1⟩ := p
      by_cases h2 : k1 = k
      · subst h2; simp [aSet, aFind_cons, h1]
      · simp [aSet, h2, aFind_cons, ih]

theorem getData_setData_self (s : Scope) (i : Nat) (d : AList) :
    (s.setData i d).getData i = d := by
  simp [Scope.getData, Scope.setData, aFind_aSet_self]

theorem getData_setData_ne (s : Scope) (i j : Nat) (d : AList) (h : j ≠ i) :
    (s.setData i d).getData j = s.getData j := by
  simp [Scope.getData, Scope.setData, aFind_aSet_ne _ _ _ _ h]

theorem setData_ids (s : Scope) (i : Nat) (d : AList) :
    (s.setData i d).ids = s.ids := rfl

theorem setData_context (s : Scope) (i : Nat) (d : AList) :
    (s.setData i d).context = s.context := rfl

theorem scope_setScope_self (c : Cache) (t : String) (s : Scope) :
    (c.setScope t s).scope t = s := by
  simp [Cache.scope, Cache.setScope, aFind_aSet_self]

theorem scope_setScope_ne (c : Cache) (t t' : String) (s : Scope) (h : t' ≠ t) :
    (c.setScope t s).scope t' = c.scope t' := by
  simp [Cache.scope, Cache.setScope, aFind_aSet_ne _ _ _ _ h]

theorem setScope_tag (c : Cache) (t : String) (s : Scope) :
    (c.setScope t s).tag = c.tag := rfl

theorem cache_field_ids (s : Scope) (i : Nat) (ftype name : String) (v : Value) :
    (s.cache_field i ftype name v).ids = s.ids := rfl

theorem cache_field_context (s : Scope) (i : Nat) (ftype name : String) (v : Value) :
    (s.cache_field i ftype name v).context = s.context := rfl

theorem dGet_getData_cache_field (s : Scope) (i j : Nat) (ftype name : String)
    (v : Value) :
    dGet ((s.cache_field i ftype name v).getData j) name
      = if i = j then some v else dGet (s.getData j) name := by
  by_cases h : i = j
  · subst h
    simp [Scope.cache_field, getData_setData_self, dGet, dSet, aFind_aSet_self]
  · simp [Scope.cache_field, getData_setData_ne _ _ _ _ fun e => h e.symm, h]

theorem update_keys_data (s : Scope) (ids : List Nat) :
    (s.update_keys ids).data = s.data := by
  induction ids generalizing s with
  | nil => rfl
  | cons i rest ih =>
      simp only [Scope.update_keys, List.foldl_cons]
      by_cases h : i ∈ s.ids <;> simp [h, Scope.update_keys] at ih ⊢ <;> exact ih _

theorem update_keys_context (s : Scope) (ids : List Nat) :
    (s.update_keys ids).context = s.context := by
  induction ids generalizing s with
  | nil => rfl
  | cons i rest ih =>
      simp only [Scope.update_keys, List.foldl_cons]
      by_cases h : i ∈ s.ids <;> simp [h, Scope.update_keys] at ih ⊢ <;> exact ih _

/-! Claim theorems. -/

/-- C2: the claim fails on the code.  `Record.__eq__` compares the record ids
only and ignores the object type, while `Record.__hash__` is derived from the
`(object_type, id)` pair: two Records over different types with the same id
compare equal yet have different hash keys, contradicting both halves of the
claim (equality iff equal type-and-id pairs; equal records have equal hashes).
The bare-integer comparison clause does hold, shown by the last conjunct. -/
theorem C2_eq_ignores_type_hash_mismatch :
    (let p : RecordS := ⟨⟨"res.partner", []⟩, 5, 0, 0, []⟩
     let q : RecordS := ⟨⟨"sale.order", []⟩, 5, 0, 1, []⟩
     p.eq (EqArg.recd q) = true ∧ p.obj.name ≠ q.obj.name
       ∧ p.hashKey ≠ q.hashKey ∧ p.eq (EqArg.intId 5) = true) := by
  decide

/-- C5: the claim fails on the code.  A `Record.read` issued with stored scope
context `{lang: en}` and ad-hoc override `{tz: UTC}` sends only the stored
context to the remote read — the override is dropped (`Record.read` never
consults its `context` parameter; `RecordList.read` rebuilds `kwargs` from
scratch before reading the override out of it).  The stored context is indeed
unchanged afterwards; the merge claimed by the spec never happens. -/
theorem C5_adhoc_context_dropped :
    (let c0 := (empty_cache 0).setScope "res.partner"
       ⟨[1], [], some [("lang", Value.vstr "en")]⟩
     let r : RecordS := ⟨objPartner, 1, 0, 0, []⟩
     let out := r.read none (some [("tz", Value.vstr "UTC")]) false c0 srvNames
     out.calls = [RCall.read [1] none (some [("lang", Value.vstr "en")])]
       ∧ (out.cache.scope "res.partner").context = some [("lang", Value.vstr "en")]
       ∧ (RecordListS.read ⟨objPartner, [r], 0⟩ none
            (some [("tz", Value.vstr "UTC")]) c0 srvNames).2
          = [RCall.read [1] none (some [("lang", Value.vstr "en")])]) := by
  decide

/-- C6: the claim fails on the code.  `RecordList.insert(0, 7)` resolves the
bare id through `self._object.read_records(7)`, which never forwards the
list's cache (`read_records` ignores its own `cache` parameter), so the
inserted Record dereferences a fresh empty cache instead of sharing the
list's one.  The resolution itself and the TypeError-equivalent rejection do
behave as claimed, shown by the remaining conjuncts. -/
theorem C6_insert_breaks_cache_sharing :
    (let l0 := (get_record_list objPartner (some [1]) none (some (empty_cache 0))
       none srvNames 0).1
     l0.cacheTag = 0
       ∧ (l0.insert 0 (InsertArg.intId 7) srvNames 5).toOption
          = some (⟨objPartner, [⟨objPartner, 7, 5, 5, []⟩, ⟨objPartner, 1, 0, 0, []⟩], 0⟩, [])
       ∧ (5 : Nat) ≠ 0
       ∧ (l0.insert 0 (InsertArg.otherVal "str") srvNames 5).toOption = none) := by
  decide

/-- C4 counterexample: resolving the non-field name `unlink` memoizes a bound
accessor (tag 10); after `refresh()` the next access for the same name still
returns that very accessor (tag 10, not a re-resolved one, which would carry
the fresh tag 11), so refresh does not invalidate the memoization. -/
theorem C4_refresh_keeps_memo_cex :
    (let r0 : RecordS := ⟨objPartner, 7, 0, 0, []⟩
     let a1 := r0.getattr "unlink" (empty_cache 0) srvNames 10
     let step := a1.rec1.refresh a1.cache
     let a2 := step.1.getattr "unlink" step.2 srvNames 11
     a1.res = AttrOut.bound ⟨"unlink", [7], 10⟩
       ∧ a2.res = AttrOut.bound ⟨"unlink", [7], 10⟩
       ∧ a2.rec1 = a1.rec1
       ∧ AttrOut.bound (⟨"unlink", [7], 10⟩ : BoundMethod)
           ≠ AttrOut.bound ⟨"unlink", [7], 11⟩) := by
  decide

/-- C4 (amended): `refresh()` does not invalidate the memoized bound-method
accessor — it clears only the cached field data; a subsequent access for the
same name returns the previously memoized accessor unchanged, without any
remote call. -/
theorem C4_refresh_keeps_memo (r : RecordS) (name : String) (bm : BoundMethod)
    (c : Cache) (srv : Service) (fresh : Nat)
    (h : mLookup r.memo name = some bm) :
    (let step := r.refresh c
     step.1.getattr name step.2 srv fresh = ⟨AttrOut.bound bm, step.1, step.2, []⟩) := by
  simp [RecordS.refresh, RecordS.getattr, h]

/-- C4 witness: the amended theorem applied to a concrete record whose
`__dict__` memoizes an accessor for `unlink`. -/
theorem C4_refresh_keeps_memo_witness :
    mLookup [("unlink", (⟨"unlink", [7], 10⟩ : BoundMethod))] "unlink"
        = some ⟨"unlink", [7], 10⟩
    ∧ (let step := (⟨objPartner, 7, 0, 0,
          [("unlink", ⟨"unlink", [7], 10⟩)]⟩ : RecordS).refresh (empty_cache 0)
       step.1.getattr "unlink" step.2 srvNames 11
         = ⟨AttrOut.bound ⟨"unlink", [7], 10⟩, step.1, step.2, []⟩) :=
  ⟨by decide,
   C4_refresh_keeps_memo ⟨objPartner, 7, 0, 0, [("unlink", ⟨"unlink", [7], 10⟩)]⟩
     "unlink" ⟨"unlink", [7], 10⟩ (empty_cache 0) srvNames 11 (by decide)⟩

/-- C3 counterexample: constructing a RecordList through the factory with a
`fields` argument is a combination of arguments that does issue a remote
read: `RecordList.__init__` ends in `self.prefetch(*fields)`, which fetches
the requested fields for the freshly registered ids. -/
theorem C3_list_fields_prefetch_cex :
    (get_record_list objPartner (some [1]) (some ["name"]) none none srvNames 0).2.2
      = [RCall.read [1] (some ["name"]) none] := by
  decide

/-- C3 (amended): constructing a Record through the factory never issues a
remote call, and constructing a RecordList issues none provided no `fields`
argument is given (a `fields` argument triggers a prefetch read); the side
effects of list construction are local bookkeeping only: merging any given
context into the per-type scope and registering the given ids there, the
element Records being one per id over the shared cache. -/
theorem C3_construction_no_remote (obj : ObjectS) (rid : Nat)
    (ids : Option (List Nat)) (cache : Option Cache) (context : Option AList)
    (srv : Service) (fresh : Nat) :
    (get_record obj rid cache context fresh).2.2 = []
    ∧ (get_record_list obj ids none cache context srv fresh).2.2 = []
    ∧ (let c0 := match cache with | some c => c | none => empty_cache fresh
       let c1 := match context with
         | some ctx => c0.setScope obj.name ((c0.scope obj.name).update_context ctx)
         | none => c0
       (get_record_list obj ids none cache context srv fresh).2.1
         = c1.setScope obj.name ((c1.scope obj.name).update_keys (ids.getD [])))
    ∧ (get_record_list obj ids none cache context srv fresh).1.records.map (·.rid)
        = ids.getD []
    ∧ (get_record_list obj ids none cache context srv fresh).1.cacheTag
        = (get_record_list obj ids none cache context srv fresh).2.1.tag := by
  refine ⟨?_, ?_, ?_, ?_, ?_⟩ <;> cases cache <;> cases context <;>
    first
      | (simp [get_record, get_record_list, Function.comp]; done)
      | (simp only [get_record_list, get_record, List.map_map]
         exact List.map_id _)

/-- C10: `RecordList.copy(context, new_cache=False)` constructs the copy over
the very cache the source list shares, so the given context delta is merged
into the shared per-type scope: afterwards the context read through that
shared cache (by the source list and every other holder) is the old context
updated with the delta, and the copy dereferences the same cache.  With
`new_cache=True` the source's cache is left completely unchanged. -/
theorem C10_copy_shared_context (l : RecordListS) (delta : AList) (c : Cache)
    (srv : Service) (fresh : Nat) :
    (let out := l.copy (some delta) false c srv fresh
     ((out.2.1.scope l.obj.name).context
        = some (dUpdate ((c.scope l.obj.name).context.getD []) delta))
       ∧ out.1.cacheTag = c.tag
       ∧ out.2.1 = out.2.2.1)
    ∧ (∀ ctx2 : Option AList, (l.copy ctx2 true c srv fresh).2.1 = c) := by
  refine ⟨⟨?_, rfl, rfl⟩, fun ctx2 => rfl⟩
  simp [RecordListS.copy, get_record_list, scope_setScope_self,
    update_keys_context, Scope.update_context]

/-! Lemmas about the `existing` filter loop. -/

theorem grl_ids (obj : ObjectS) (ids : List Nat) (c : Cache) (srv : Service)
    (fresh : Nat) :
    (get_record_list obj (some ids) none (some c) none srv fresh).1.ids = ids := by
  simp only [get_record_list, get_record, RecordListS.ids, List.map_map]
  exact List.map_id _

theorem pyFilterUniq_false_eq (exist : List Nat) (xs acc : List Nat) :
    pyFilterUniq false exist acc xs
      = acc ++ xs.filter (fun i => decide (i ∈ exist)) := by
  induction xs generalizing acc with
  | nil => simp [pyFilterUniq]
  | cons x rest ih =>
      by_cases hx : x ∈ exist
      · simp [pyFilterUniq, hx, ih, List.filter_cons, List.append_assoc]
      · simp [pyFilterUniq, hx, ih, List.filter_cons]

theorem dedupFirstFrom_congr (s1 s2 xs : List Nat)
    (h : ∀ y, y ∈ s1 ↔ y ∈ s2) : dedupFirstFrom s1 xs = dedupFirstFrom s2 xs := by
  induction xs generalizing s1 s2 with
  | nil => rfl
  | cons x rest ih =>
      by_cases hx : x ∈ s2
      · simp [dedupFirstFrom, hx, (h x).2 hx, ih s1 s2 h]
      · have hx1 : x ∉ s1 := fun hh => hx ((h x).1 hh)
        simp only [dedupFirstFrom, if_neg hx, if_neg hx1]
        have h2 : ∀ y, y ∈ x :: s1 ↔ y ∈ x :: s2 := by
          intro y; simp [h y]
        rw [ih (x :: s1) (x :: s2) h2]

theorem pyFilterUniq_true_eq (exist : List Nat) (xs acc : List Nat) :
    pyFilterUniq true exist acc xs
      = acc ++ dedupFirstFrom acc (xs.filter (fun i => decide (i ∈ exist))) := by
  induction xs generalizing acc with
  | nil => simp [pyFilterUniq, dedupFirstFrom]
  | cons x rest ih =>
      by_cases hx : x ∈ exist
      · by_cases ha : x ∈ acc
        · simp [pyFilterUniq, hx, ha, ih, List.filter_cons, dedupFirstFrom]
        · have hmem : ∀ y, y ∈ acc ++ [x] ↔ y ∈ x :: acc := by
            intro y; simp [List.mem_append, or_comm]
          have step1 : pyFilterUniq true exist acc (x :: rest)
              = pyFilterUniq true exist (acc ++ [x]) rest := by
            simp [pyFilterUniq, hx, ha]
          rw [step1, ih, dedupFirstFrom_congr _ _ _ hmem]
          simp [List.filter_cons, hx, dedupFirstFrom, ha, List.append_assoc]
      · simp [pyFilterUniq, hx, ih, List.filter_cons]

/-- C9: `existing(uniqify)` asks the Object Service which ids still exist and
returns a new RecordList over the same cache whose id sequence is the
original sequence restricted to the reported ids; with `uniqify = true` only
the first occurrence of each surviving id is kept, first-seen order
preserved, while `uniqify = false` keeps duplicates. -/
theorem C9_existing_filters_and_dedups (l : RecordListS) (c : Cache)
    (srv : Service) (fresh : Nat) :
    (let exist := srv.existsResp l.ids (c.scope l.obj.name).context
     ((l.existing true c srv fresh).1.ids
        = dedupFirstFrom [] (l.ids.filter (fun i => decide (i ∈ exist))))
       ∧ ((l.existing false c srv fresh).1.ids
            = l.ids.filter (fun i => decide (i ∈ exist)))
       ∧ ∀ u : Bool, (l.existing u c srv fresh).1.cacheTag = c.tag) := by
  refine ⟨?_, ?_, fun u => rfl⟩
  · simp [RecordListS.existing, grl_ids, pyFilterUniq_true_eq]
  · simp [RecordListS.existing, grl_ids, pyFilterUniq_false_eq]

/-! Lemmas for the many2one relation resolver. -/

theorem get_record_shape (obj : ObjectS) (rid : Nat) (c : Cache)
    (ctx : Option AList) (fresh : Nat) :
    (get_record obj rid (some c) ctx fresh).1 = ⟨obj, rid, c.tag, fresh, []⟩
    ∧ (get_record obj rid (some c) ctx fresh).2.1.tag = c.tag
    ∧ (get_record obj rid (some c) ctx fresh).2.1
        = (match ctx with
           | some d => c.setScope obj.name ((c.scope obj.name).update_context d)
           | none => c) := by
  cases ctx <;> simp [get_record, Cache.setScope]

theorem m2o_resolve_eq (r : RecordRel) (name relName : String) (info : FieldInfo)
    (rel_data : Value) (cached : Bool) (c : Cache) (srv : Service) (fresh n : Nat)
    (hcond : ((rLookup r.related name).isNone || !cached) = true)
    (h_truthy : rel_data.truthy = true)
    (h_id : extractRelId rel_data = some n)
    (h_col : cLookup r.base.obj.columns_info name = some info)
    (h_rel : info.relation = relName) :
    r.get_many2one_rel_obj name rel_data cached c srv fresh
      = (let step := get_record (srv.getObj relName) n (some c)
           ((c.scope r.base.obj.name).context) fresh
         some (RelVal.one step.1,
           { r with related := rSet r.related name (RelVal.one step.1) }, step.2.1)) := by
  subst h_rel
  simp [RecordRel.get_many2one_rel_obj, hcond, h_truthy, h_id, h_col]

/-- C8: resolving a many2one field with a truthy raw value (an `[id, label]`
pair or a bare id) produces a Record carrying the extracted id, dereferencing
the parent's cache, over the related model, with the parent's context merged
into the related scope; a falsy raw value stores the "no relation" sentinel
without error; a second resolution with `cached=true` returns the identical
memoized instance with no state change, while `cached=false` re-resolves to a
new instance (a different proxy object) with the same id. -/
theorem C8_many2one_resolution (r : RecordRel) (name relName : String)
    (info : FieldInfo) (c : Cache) (srv : Service) (n f1 f2 : Nat)
    (rel_data : Value)
    (h_col : cLookup r.base.obj.columns_info name = some info)
    (h_rel : info.relation = relName)
    (h_none : rLookup r.related name = none)
    (h_truthy : rel_data.truthy = true)
    (h_id : extractRelId rel_data = some n)
    (h_tag : f2 ≠ f1) :
    (let c1 := match (c.scope r.base.obj.name).context with
       | some pctx => c.setScope (srv.getObj relName).name
           ((c.scope (srv.getObj relName).name).update_context pctx)
       | none => c
     let nr : RecordS := ⟨srv.getObj relName, n, c.tag, f1, []⟩
     let r1 : RecordRel := { r with related := rSet r.related name (RelVal.one nr) }
     r.get_many2one_rel_obj name rel_data true c srv f1
         = some (RelVal.one nr, r1, c1)
       ∧ nr.rid = n ∧ nr.cacheTag = c.tag ∧ nr.obj = srv.getObj relName
       ∧ r1.get_many2one_rel_obj name rel_data true c1 srv f2
           = some (RelVal.one nr, r1, c1)
       ∧ (∀ pctx, (c.scope r.base.obj.name).context = some pctx →
            (c1.scope (srv.getObj relName).name).context
              = some (dUpdate ((c.scope (srv.getObj relName).name).context.getD []) pctx))
       ∧ (∃ nr2 r2 c2,
            r1.get_many2one_rel_obj name rel_data false c1 srv f2
                = some (RelVal.one nr2, r2, c2)
              ∧ nr2.rid = n ∧ nr2.cacheTag = c1.tag ∧ nr2 ≠ nr)
       ∧ r.get_many2one_rel_obj name (Value.vbool false) true c srv f1
           = some (RelVal.noRel, { r with related := rSet r.related name RelVal.noRel }, c)) := by
  intro c1 nr r1
  have hcond1 : ((rLookup r.related name).isNone || !true) = true := by
    simp [h_none]
  have h1 := m2o_resolve_eq r name relName info rel_data true c srv f1 n
    hcond1 h_truthy h_id h_col h_rel
  have hshape := get_record_shape (srv.getObj relName) n c
    ((c.scope r.base.obj.name).context) f1
  have hc1 : (get_record (srv.getObj relName) n (some c)
      ((c.scope r.base.obj.name).context) f1).2.1 = c1 := by
    rw [hshape.2.2]
  have hnr : (get_record (srv.getObj relName) n (some c)
      ((c.scope r.base.obj.name).context) f1).1 = nr := by
    rw [hshape.1]
  have hfst : r.get_many2one_rel_obj name rel_data true c srv f1
      = some (RelVal.one nr, r1, c1) := by
    rw [h1]; simp only []; rw [hnr, hc1]
  have hmem : rLookup r1.related name = some (RelVal.one nr) := by
    simp [rLookup, rSet, aFind_aSet_self]
  have hc1tag : c1.tag = c.tag := by
    show (match (c.scope r.base.obj.name).context with
       | some pctx => c.setScope (srv.getObj relName).name
           ((c.scope (srv.getObj relName).name).update_context pctx)
       | none => c).tag = c.tag
    cases (c.scope r.base.obj.name).context <;> simp [Cache.setScope]
  refine ⟨hfst, rfl, rfl, rfl, ?_, ?_, ?_, ?_⟩
  · simp [RecordRel.get_many2one_rel_obj, hmem]
  · intro pctx hctx
    show (c1.scope (srv.getObj relName).name).context = _
    have : c1 = c.setScope (srv.getObj relName).name
        ((c.scope (srv.getObj relName).name).update_context pctx) := by
      show (match (c.scope r.base.obj.name).context with
         | some pctx => c.setScope (srv.getObj relName).name
             ((c.scope (srv.getObj relName).name).update_context pctx)
         | none => c) = _
      rw [hctx]
    rw [this, scope_setScope_self, Scope.update_context]
  · have hcond2 : ((rLookup r1.related name).isNone || !false) = true := by simp
    have h3 := m2o_resolve_eq r1 name relName info rel_data false c1 srv f2 n
      hcond2 h_truthy h_id h_col h_rel
    have hshape2 := get_record_shape (srv.getObj relName) n c1
      ((c1.scope r1.base.obj.name).context) f2
    refine ⟨(get_record (srv.getObj relName) n (some c1)
        ((c1.scope r1.base.obj.name).context) f2).1, _, _, h3, ?_, ?_, ?_⟩
    · rw [hshape2.1]
    · rw [hshape2.1]
    · rw [hshape2.1]
      intro he
      have : f2 = f1 := congrArg RecordS.itag he
      exact h_tag this
  · simp [RecordRel.get_many2one_rel_obj, h_none, Value.truthy]

/-- C8 witness: the resolution theorem applied to a concrete relation-aware
record whose `parent_id` raw value is the pair `(5, "Acme")`. -/
theorem C8_many2one_resolution_witness :
    extractRelId (Value.vrel 5 "Acme") = some 5
    ∧ (Value.vrel 5 "Acme").truthy = true
    ∧ (⟨⟨objPartner, 3, 0, 0, []⟩, []⟩ : RecordRel).get_many2one_rel_obj "parent_id"
        (Value.vrel 5 "Acme") true (empty_cache 0) srvNames 1
      = some (RelVal.one ⟨srvNames.getObj "res.partner", 5, 0, 1, []⟩,
          ⟨⟨objPartner, 3, 0, 0, []⟩,
           [("parent_id", RelVal.one ⟨srvNames.getObj "res.partner", 5, 0, 1, []⟩)]⟩,
          empty_cache 0) :=
  ⟨by decide, by decide,
   (C8_many2one_resolution ⟨⟨objPartner, 3, 0, 0, []⟩, []⟩ "parent_id" "res.partner"
      ⟨"many2one", "res.partner", false⟩ (empty_cache 0) srvNames 5 1 2
      (Value.vrel 5 "Acme") (by decide) rfl (by decide) (by decide) (by decide)
      (by decide)).1⟩

/-! Lemmas for the batched field fetch. -/

theorem get_field_hit (r : RecordS) (t ftype name : String) (c : Cache)
    (srv : Service) (ht : r.obj.name = t)
    (hhit : dHas ((c.scope t).getData r.rid) name = true) :
    r.get_field ftype name c srv
      = ⟨dGet ((c.scope t).getData r.rid) name, c, []⟩ := by
  subst ht; simp [RecordS.get_field, hhit]

theorem cacheRowsAcc_spec (ftype name : String) (rows : List Row) (s : Scope)
    (h : ∀ row ∈ rows, (dGet row.fields name).isSome) :
    (cacheRowsAcc s ftype name rows).2 = true
    ∧ (cacheRowsAcc s ftype name rows).1.ids = s.ids
    ∧ (cacheRowsAcc s ftype name rows).1.context = s.context
    ∧ ∀ i, dGet ((cacheRowsAcc s ftype name rows).1.getData i) name
        = (match rowsValue rows i name with
           | some v => some v
           | none => dGet (s.getData i) name) := by
  induction rows generalizing s with
  | nil => simp [cacheRowsAcc, rowsValue]
  | cons row rest ih =>
      obtain ⟨v, hv⟩ := Option.isSome_iff_exists.mp (h row (List.mem_cons_self _ _))
      have hrest : ∀ q ∈ rest, (dGet q.fields name).isSome :=
        fun q hq => h q (List.mem_cons_of_mem _ hq)
      have ihs := ih (s.cache_field row.rid ftype name v) hrest
      have hstep : cacheRowsAcc s ftype name (row :: rest)
          = cacheRowsAcc (s.cache_field row.rid ftype name v) ftype name rest := by
        simp [cacheRowsAcc, hv]
      refine ⟨by rw [hstep]; exact ihs.1,
              by rw [hstep, ihs.2.1, cache_field_ids],
              by rw [hstep, ihs.2.2.1, cache_field_context], ?_⟩
      intro i
      rw [hstep, ihs.2.2.2 i]
      cases hrv : rowsValue rest i name with
      | some w => simp [rowsValue, hrv]
      | none =>
          by_cases hri : row.rid = i
          · simp [rowsValue, hrv, hri, hv, dGet_getData_cache_field]
          · simp [rowsValue, hrv, hri, hv, dGet_getData_cache_field]

theorem rowsValue_isSome_of_mem (rows : List Row) (i : Nat) (name : String)
    (h : ∀ row ∈ rows, (dGet row.fields name).isSome)
    (hi : i ∈ rows.map Row.rid) : (rowsValue rows i name).isSome := by
  induction rows with
  | nil => simp at hi
  | cons row rest ih =>
      simp only [List.map_cons, List.mem_cons] at hi
      rcases hi with hi | hi
      · subst hi
        simp only [rowsValue]
        cases hrv : rowsValue rest row.rid name with
        | some w => simp
        | none => simpa using h row (List.mem_cons_self _ _)
      · have hs := ih (fun q hq => h q (List.mem_cons_of_mem _ hq)) hi
        simp only [rowsValue]
        cases hrv : rowsValue rest i name with
        | some w => simp
        | none => rw [hrv] at hs; simp at hs

theorem get_field_miss (r : RecordS) (t ftype name : String) (c : Cache)
    (srv : Service) (ht : r.obj.name = t)
    (hmiss : dHas ((c.scope t).getData r.rid) name = false)
    (hfld : ∀ row ∈ srv.readResp ((c.scope t).get_ids_to_read name)
        (some [name]) (c.scope t).context, (dGet row.fields name).isSome) :
    r.get_field ftype name c srv
      = ⟨rowsValue (srv.readResp ((c.scope t).get_ids_to_read name)
            (some [name]) (c.scope t).context) r.rid name,
         c.setScope t
           (cacheRowsAcc (c.scope t) ftype name
             (srv.readResp ((c.scope t).get_ids_to_read name)
               (some [name]) (c.scope t).context)).1,
         [RCall.read ((c.scope t).get_ids_to_read name)
           (some [name]) (c.scope t).context]⟩ := by
  subst ht
  have hspec := cacheRowsAcc_spec ftype name
    (srv.readResp ((c.scope r.obj.name).get_ids_to_read name) (some [name])
      (c.scope r.obj.name).context) (c.scope r.obj.name) hfld
  have holdnone : dGet ((c.scope r.obj.name).getData r.rid) name = none := by
    cases hdg : dGet ((c.scope r.obj.name).getData r.rid) name with
    | none => rfl
    | some v => exfalso; simp [dHas, hdg] at hmiss
  have hval2 : dGet (((cacheRowsAcc (c.scope r.obj.name) ftype name
      (srv.readResp ((c.scope r.obj.name).get_ids_to_read name) (some [name])
        (c.scope r.obj.name).context)).1).getData r.rid) name
      = rowsValue (srv.readResp ((c.scope r.obj.name).get_ids_to_read name)
          (some [name]) (c.scope r.obj.name).context) r.rid name := by
    rw [hspec.2.2.2 r.rid, holdnone]
    cases rowsValue (srv.readResp ((c.scope r.obj.name).get_ids_to_read name)
      (some [name]) (c.scope r.obj.name).context) r.rid name <;> rfl
  simp [RecordS.get_field, hmiss, hspec.1, hval2]

theorem accessAll_vals_cons (ftype name : String) (r : RecordS)
    (rest : List RecordS) (c : Cache) (srv : Service) :
    accessAll ftype name (r :: rest) c srv
      = ⟨(r.get_field ftype name c srv).val
          :: (accessAll ftype name rest (r.get_field ftype name c srv).cache srv).vals,
         (accessAll ftype name rest (r.get_field ftype name c srv).cache srv).cache,
         (r.get_field ftype name c srv).calls
          ++ (accessAll ftype name rest (r.get_field ftype name c srv).cache srv).calls⟩ := rfl

theorem accessAll_hits (t ftype name : String) (rs : List RecordS) (c : Cache)
    (srv : Service)
    (hobjn : ∀ r ∈ rs, r.obj.name = t)
    (hreg : ∀ r ∈ rs, r.rid ∈ (c.scope t).ids)
    (hall : allCached c t name) :
    (accessAll ftype name rs c srv).cache = c
    ∧ (accessAll ftype name rs c srv).calls = []
    ∧ ∀ v ∈ (accessAll ftype name rs c srv).vals, v.isSome := by
  induction rs with
  | nil => simp [accessAll]
  | cons r rest ih =>
      have hhit : dHas ((c.scope t).getData r.rid) name = true :=
        hall r.rid (hreg r (List.mem_cons_self _ _))
      have hfe := get_field_hit r t ftype name c srv (hobjn r (List.mem_cons_self _ _)) hhit
      have ihr := ih (fun q hq => hobjn q (List.mem_cons_of_mem _ hq))
        (fun q hq => hreg q (List.mem_cons_of_mem _ hq))
      rw [accessAll_vals_cons, hfe]
      refine ⟨ihr.1, by simp [ihr.2.1], ?_⟩
      intro v hv
      rcases List.mem_cons.mp hv with hv | hv
      · subst hv; exact hhit
      · exact ihr.2.2 v hv

/-- C1: accessing the same field on every Record of a collection of the same
object type sharing one cache triggers at most one remote read — either every
access hits the cache, or exactly one `read` is issued and it covers
precisely the registered ids still lacking the field — and afterwards every
one of the accesses returns a value without any further remote call
(hypotheses: every record's id is registered, and the service answers the
batched read with one row per requested id, each carrying the field). -/
theorem C1_single_batched_read (obj : ObjectS) (ftype name : String)
    (rs : List RecordS) (c : Cache) (srv : Service)
    (h_obj : ∀ r ∈ rs, r.obj = obj)
    (h_reg : ∀ r ∈ rs, r.rid ∈ (c.scope obj.name).ids)
    (h_ids : (srv.readResp ((c.scope obj.name).get_ids_to_read name) (some [name])
        (c.scope obj.name).context).map Row.rid
        = (c.scope obj.name).get_ids_to_read name)
    (h_fld : ∀ row ∈ srv.readResp ((c.scope obj.name).get_ids_to_read name)
        (some [name]) (c.scope obj.name).context, (dGet row.fields name).isSome) :
    ((accessAll ftype name rs c srv).calls = []
      ∨ (accessAll ftype name rs c srv).calls
          = [RCall.read ((c.scope obj.name).get_ids_to_read name) (some [name])
              (c.scope obj.name).context])
    ∧ ∀ v ∈ (accessAll ftype name rs c srv).vals, v.isSome := by
  induction rs with
  | nil => simp [accessAll]
  | cons r rest ih =>
      have hro : r.obj.name = obj.name :=
        congrArg ObjectS.name (h_obj r (List.mem_cons_self _ _))
      have hrest_obj : ∀ q ∈ rest, q.obj = obj :=
        fun q hq => h_obj q (List.mem_cons_of_mem _ hq)
      have hrest_reg : ∀ q ∈ rest, q.rid ∈ (c.scope obj.name).ids :=
        fun q hq => h_reg q (List.mem_cons_of_mem _ hq)
      by_cases hhit : dHas ((c.scope obj.name).getData r.rid) name = true
      · have hfe := get_field_hit r obj.name ftype name c srv hro hhit
        have ihres := ih hrest_obj hrest_reg
        rw [accessAll_vals_cons, hfe]
        constructor
        · rcases ihres.1 with h | h
          · left; simp [h]
          · right; simp [h]
        · intro v hv
          rcases List.mem_cons.mp hv with hv | hv
          · subst hv; exact hhit
          · exact ihres.2 v hv
      · have hmiss : dHas ((c.scope obj.name).getData r.rid) name = false := by
          simpa using hhit
        have hfe := get_field_miss r obj.name ftype name c srv hro hmiss h_fld
        have hspec := cacheRowsAcc_spec ftype name
          (srv.readResp ((c.scope obj.name).get_ids_to_read name) (some [name])
            (c.scope obj.name).context) (c.scope obj.name) h_fld
        have hreg_r : r.rid ∈ (c.scope obj.name).ids :=
          h_reg r (List.mem_cons_self _ _)
        have hAll : allCached
            (c.setScope obj.name (cacheRowsAcc (c.scope obj.name) ftype name
              (srv.readResp ((c.scope obj.name).get_ids_to_read name) (some [name])
                (c.scope obj.name).context)).1) obj.name name := by
          intro i hi
          rw [scope_setScope_self] at hi ⊢
          rw [hspec.2.1] at hi
          show (dGet _ name).isSome = true
          rw [hspec.2.2.2 i]
          by_cases hdi : dHas ((c.scope obj.name).getData i) name = true
          · cases hrv : rowsValue (srv.readResp ((c.scope obj.name).get_ids_to_read name)
                (some [name]) (c.scope obj.name).context) i name with
            | some w => simp
            | none => simpa [dHas] using hdi
          · have hdi' : dHas ((c.scope obj.name).getData i) name = false := by
              simpa using hdi
            have hmem : i ∈ (srv.readResp ((c.scope obj.name).get_ids_to_read name)
                (some [name]) (c.scope obj.name).context).map Row.rid := by
              rw [h_ids]
              simp [Scope.get_ids_to_read, hi, hdi']
            have hsome := rowsValue_isSome_of_mem _ i name h_fld hmem
            cases hrv : rowsValue (srv.readResp ((c.scope obj.name).get_ids_to_read name)
                (some [name]) (c.scope obj.name).context) i name with
            | some w => simp
            | none => rw [hrv] at hsome; simp at hsome
        have hids1 : ((c.setScope obj.name (cacheRowsAcc (c.scope obj.name) ftype name
            (srv.readResp ((c.scope obj.name).get_ids_to_read name) (some [name])
              (c.scope obj.name).context)).1).scope obj.name).ids
            = (c.scope obj.name).ids := by
          rw [scope_setScope_self, hspec.2.1]
        have hrest := accessAll_hits obj.name ftype name rest _ srv
          (fun q hq => congrArg ObjectS.name (hrest_obj q hq))
          (fun q hq => by rw [hids1]; exact hrest_reg q hq) hAll
        rw [accessAll_vals_cons, hfe]
        constructor
        · right; simp [hrest.2.1]
        · intro v hv
          rcases List.mem_cons.mp hv with hv | hv
          · subst hv
            show (rowsValue _ r.rid name).isSome = true
            apply rowsValue_isSome_of_mem _ r.rid name h_fld
            rw [h_ids]
            simp [Scope.get_ids_to_read, hreg_r, hmiss]
          · exact hrest.2.2 v hv

/-- C1 witness: two records over ids 1 and 2, both registered in a shared
cache with no data; the batching theorem applied with the sample service. -/
theorem C1_single_batched_read_witness :
    ((∀ r ∈ [(⟨objPartner, 1, 0, 0, []⟩ : RecordS), ⟨objPartner, 2, 0, 0, []⟩],
        r.obj = objPartner)
      ∧ (∀ r ∈ [(⟨objPartner, 1, 0, 0, []⟩ : RecordS), ⟨objPartner, 2, 0, 0, []⟩],
          r.rid ∈ (((⟨0, [("res.partner", ⟨[1, 2], [], none⟩)]⟩ : Cache)).scope
            objPartner.name).ids))
    ∧ (((accessAll "char" "name" [⟨objPartner, 1, 0, 0, []⟩, ⟨objPartner, 2, 0, 0, []⟩]
          ⟨0, [("res.partner", ⟨[1, 2], [], none⟩)]⟩ srvNames).calls = []
        ∨ (accessAll "char" "name" [⟨objPartner, 1, 0, 0, []⟩, ⟨objPartner, 2, 0, 0, []⟩]
            ⟨0, [("res.partner", ⟨[1, 2], [], none⟩)]⟩ srvNames).calls
            = [RCall.read ((((⟨0, [("res.partner", ⟨[1, 2], [], none⟩)]⟩ : Cache)).scope
                objPartner.name).get_ids_to_read "name") (some ["name"])
                ((((⟨0, [("res.partner", ⟨[1, 2], [], none⟩)]⟩ : Cache)).scope
                  objPartner.name).context)])
       ∧ ∀ v ∈ (accessAll "char" "name" [⟨objPartner, 1, 0, 0, []⟩, ⟨objPartner, 2, 0, 0, []⟩]
           ⟨0, [("res.partner", ⟨[1, 2], [], none⟩)]⟩ srvNames).vals, v.isSome) :=
  ⟨⟨by decide, by decide⟩,
   C1_single_batched_read objPartner "char" "name"
     [⟨objPartner, 1, 0, 0, []⟩, ⟨objPartner, 2, 0, 0, []⟩]
     ⟨0, [("res.partner", ⟨[1, 2], [], none⟩)]⟩ srvNames
     (by decide) (by decide) (by decide) (by decide)⟩

/-- C7: after `refresh()` — which returns the record itself — the next access
to any data field (any name other than the identity key `id`, which is served
locally and never fetched) misses the cleared cache and issues exactly one
remote read; the value returned is the one carried by the freshly fetched
rows, never the previously cached one. -/
theorem C7_refresh_forces_fetch (r : RecordS) (c : Cache) (srv : Service)
    (ftype name : String)
    (h_name : name ≠ "id")
    (h_reg : r.rid ∈ (c.scope r.obj.name).ids)
    (h_ids : (srv.readResp ((((r.refresh c).2).scope r.obj.name).get_ids_to_read name)
        (some [name]) (((r.refresh c).2).scope r.obj.name).context).map Row.rid
        = (((r.refresh c).2).scope r.obj.name).get_ids_to_read name)
    (h_fld : ∀ row ∈ srv.readResp ((((r.refresh c).2).scope r.obj.name).get_ids_to_read name)
        (some [name]) (((r.refresh c).2).scope r.obj.name).context,
        (dGet row.fields name).isSome) :
    (r.refresh c).1 = r
    ∧ (r.get_field ftype name (r.refresh c).2 srv).calls
        = [RCall.read ((((r.refresh c).2).scope r.obj.name).get_ids_to_read name)
            (some [name]) (((r.refresh c).2).scope r.obj.name).context]
    ∧ (r.get_field ftype name (r.refresh c).2 srv).val
        = rowsValue (srv.readResp ((((r.refresh c).2).scope r.obj.name).get_ids_to_read name)
            (some [name]) (((r.refresh c).2).scope r.obj.name).context) r.rid name
    ∧ ((r.get_field ftype name (r.refresh c).2 srv).val).isSome := by
  have hmiss : dHas ((((r.refresh c).2).scope r.obj.name).getData r.rid) name = false := by
    show dHas (((c.setScope r.obj.name ((c.scope r.obj.name).setData r.rid
      [("id", Value.vint (Int.ofNat r.rid))])).scope r.obj.name).getData r.rid) name = false
    rw [scope_setScope_self, getData_setData_self]
    have hne : ¬ "id" = name := fun e => h_name e.symm
    simp [dHas, dGet, aFind_cons, aFind, hne]
  have hfe := get_field_miss r r.obj.name ftype name ((r.refresh c).2) srv rfl hmiss h_fld
  have hids : ((((r.refresh c).2)).scope r.obj.name).ids = (c.scope r.obj.name).ids := by
    show ((c.setScope r.obj.name ((c.scope r.obj.name).setData r.rid
      [("id", Value.vint (Int.ofNat r.rid))])).scope r.obj.name).ids = _
    rw [scope_setScope_self, setData_ids]
  refine ⟨rfl, by rw [hfe], by rw [hfe], ?_⟩
  rw [hfe]
  show (rowsValue _ r.rid name).isSome = true
  apply rowsValue_isSome_of_mem _ _ _ h_fld
  rw [h_ids]
  simp [Scope.get_ids_to_read, List.mem_filter, hids, h_reg, hmiss]

/-- C7 witness: a record whose `name` field is cached as `"old"`; after
refresh, the access fetches afresh through the sample service. -/
theorem C7_refresh_forces_fetch_witness :
    ("name" ≠ "id"
      ∧ (1 : Nat) ∈ (((⟨0, [("res.partner",
            ⟨[1], [(1, [("name", Value.vstr "old")])], none⟩)]⟩ : Cache)).scope
          (⟨objPartner, 1, 0, 0, []⟩ : RecordS).obj.name).ids)
    ∧ (((⟨objPartner, 1, 0, 0, []⟩ : RecordS).refresh
          ⟨0, [("res.partner", ⟨[1], [(1, [("name", Value.vstr "old")])], none⟩)]⟩).1
        = ⟨objPartner, 1, 0, 0, []⟩
      ∧ ((⟨objPartner, 1, 0, 0, []⟩ : RecordS).get_field "char" "name"
          ((⟨objPartner, 1, 0, 0, []⟩ : RecordS).refresh
            ⟨0, [("res.partner", ⟨[1], [(1, [("name", Value.vstr "old")])], none⟩)]⟩).2
          srvNames).calls
        = [RCall.read (((((⟨objPartner, 1, 0, 0, []⟩ : RecordS).refresh
              ⟨0, [("res.partner", ⟨[1], [(1, [("name", Value.vstr "old")])], none⟩)]⟩).2).scope
              (⟨objPartner, 1, 0, 0, []⟩ : RecordS).obj.name).get_ids_to_read "name")
            (some ["name"])
            ((((⟨objPartner, 1, 0, 0, []⟩ : RecordS).refresh
              ⟨0, [("res.partner", ⟨[1], [(1, [("name", Value.vstr "old")])], none⟩)]⟩).2).scope
              (⟨objPartner, 1, 0, 0, []⟩ : RecordS).obj.name).context]
      ∧ ((⟨objPartner, 1, 0, 0, []⟩ : RecordS).get_field "char" "name"
          ((⟨objPartner, 1, 0, 0, []⟩ : RecordS).refresh
            ⟨0, [("res.partner", ⟨[1], [(1, [("name", Value.vstr "old")])], none⟩)]⟩).2
          srvNames).val
        = rowsValue (srvNames.readResp
            (((((⟨objPartner, 1, 0, 0, []⟩ : RecordS).refresh
              ⟨0, [("res.partner", ⟨[1], [(1, [("name", Value.vstr "old")])], none⟩)]⟩).2).scope
              (⟨objPartner, 1, 0, 0, []⟩ : RecordS).obj.name).get_ids_to_read "name")
            (some ["name"])
            ((((⟨objPartner, 1, 0, 0, []⟩ : RecordS).refresh
              ⟨0, [("res.partner", ⟨[1], [(1, [("name", Value.vstr "old")])], none⟩)]⟩).2).scope
              (⟨objPartner, 1, 0, 0, []⟩ : RecordS).obj.name).context) 1 "name"
      ∧ (((⟨objPartner, 1, 0, 0, []⟩ : RecordS).get_field "char" "name"
          ((⟨objPartner, 1, 0, 0, []⟩ : RecordS).refresh
            ⟨0, [("res.partner", ⟨[1], [(1, [("name", Value.vstr "old")])], none⟩)]⟩).2
          srvNames).val).isSome) :=
  ⟨⟨by decide, by decide⟩,
   C7_refresh_forces_fetch ⟨objPartner, 1, 0, 0, []⟩
     ⟨0, [("res.partner", ⟨[1], [(1, [("name", Value.vstr "old")])], none⟩)]⟩
     srvNames "char" "name" (by decide) (by decide) (by decide) (by decide)⟩

end Orm
